import Mathlib

/-!
Verification of the request build-and-execution pipeline of `slumber`
(`src/http.rs`), as a shallow embedding.  Templates and the external render
contract are kept abstract: a `TemplateContext` carries the two render
functions consumed by the pipeline (`render_string`, `render`), each of which
may fail.  Fallible operations are modelled with `Option`; byte vectors as
`List Nat`; the wall-clock reads and the network/database collaborators of
`RequestTicket::send` as an explicit `SendWorld` value.
-/

namespace Slumber

/-- A template value.  The pipeline never inspects a template itself; it only
hands it to the render contract.  We identify a template by its raw text. -/
structure Template where
  raw : String
deriving DecidableEq

/-- HTTP method, from `collection::Method` as used by `http.rs`. -/
inductive Method where
  | Connect | Delete | Get | Head | Options | Patch | Post | Put | Trace
deriving DecidableEq

/-- `collection::Authentication<T>`: polymorphic over the template/rendered
payload type, exactly as in the source. -/
inductive Authentication (T : Type) where
  | basic (username : T) (password : Option T)
  | bearer (token : T)
deriving DecidableEq

/-- A recipe: one user-authored request template (`collection::Recipe`),
restricted to the fields the pipeline reads. -/
structure Recipe where
  id : String
  method : Method
  url : Template
  query : List (String × Template)
  headers : List (String × Template)
  authentication : Option (Authentication Template)
  body : Option Template

/-- `BuildOptions` exactly as constructible in this version of the code: the
test in `http.rs` builds it with an exhaustive struct literal holding only
these two fields.  The hash sets are modelled as lists queried by
`List.contains`. -/
structure BuildOptions where
  disabled_headers : List String
  disabled_query_parameters : List String

/-- `RequestSeed`: one build attempt. -/
structure RequestSeed where
  id : Nat
  recipe : Recipe
  options : BuildOptions

/-- The template context together with the render contract it is consumed
through: `Template::render_string` produces a string, `Template::render`
produces bytes, and either may fail. -/
structure TemplateContext where
  render_string : Template → Option String
  render : Template → Option (List Nat)

/-- A resolved URL, reduced to what the pipeline observes: an optional host
(`Url::host_str`), the rest of the URL text, and its query pairs. -/
structure Url where
  host : Option String
  base : String
  query : List (String × String)
deriving DecidableEq

/-- Which of the two reqwest clients owned by `HttpEngine` is selected. -/
inductive ClientChoice where
  | standard
  | danger
deriving DecidableEq

/-- The single left-to-right scan of the Rust trim loop: the suffix of the
input starting at the first byte that does not satisfy `f` (the loop body
`drain(0..i)` keeps exactly this suffix), or `none` when the loop finishes
without its `break` ever firing. -/
def trimStartAux (f : Nat → Bool) : List Nat → Option (List Nat)
  | [] => none
  | b :: rest => if f b then trimStartAux f rest else some (b :: rest)

/-- Front half of `trim_bytes`: when the scan never finds a non-matching byte
the Rust loop performs no `drain` and the vector is left as is. -/
def trimStart (f : Nat → Bool) (bytes : List Nat) : List Nat :=
  (trimStartAux f bytes).getD bytes

/-- Back half of `trim_bytes`: the Rust loop walks indices from the back and
on the first non-matching byte keeps the prefix up to it (`drain(i+1..len)`);
walking from the back is scanning the reversal from the front. -/
def trimEnd (f : Nat → Bool) (bytes : List Nat) : List Nat :=
  ((trimStartAux f bytes.reverse).map List.reverse).getD bytes

/-- `trim_bytes` from `http.rs`: trim front, then trim back. -/
def trim_bytes (f : Nat → Bool) (bytes : List Nat) : List Nat :=
  trimEnd f (trimStart f bytes)

/-- The predicate `trim_bytes` is called with in `render_header`:
`c == b'\n' || c == b'\r'`. -/
def is_line_break (b : Nat) : Bool :=
  b == 10 || b == 13

/-- The contiguous segment of a byte sequence from its first byte not
satisfying `f` through its last such byte.  This is vocabulary for the
interior-preservation claim, not code: the bytes the spec says trimming must
never remove. -/
def core_segment (f : Nat → Bool) (l : List Nat) : List Nat :=
  ((l.dropWhile f).reverse.dropWhile f).reverse

/-- `futures::future::try_join_all` over fallible renders: all succeed and the
results are collected in order, or the whole join fails. -/
def try_join_all {α β : Type} (f : α → Option β) : List α → Option (List β)
  | [] => some []
  | x :: xs =>
    match f x with
    | none => none
    | some y =>
      match try_join_all f xs with
      | none => none
      | some ys => some (y :: ys)

/-- Insertion into an `IndexMap<String, String>`: an existing key keeps its
position and gets the new value, a new key is appended. -/
def indexMapInsert (m : List (String × String)) (k : String) (v : String) :
    List (String × String) :=
  if m.any (fun p => p.1 == k) then
    m.map (fun p => if p.1 == k then (k, v) else p)
  else
    m ++ [(k, v)]

/-- `collect::<IndexMap<String, String>>()` over a list of pairs. -/
def indexMapCollect (l : List (String × String)) : List (String × String) :=
  l.foldl (fun m p => indexMapInsert m p.1 p.2) []

/-- Valid token character of an HTTP header name, the contract of
`HeaderName::try_from` consumed from the `http` crate (codes 39 and 96 are
the apostrophe and the backquote). -/
def isHeaderNameChar (c : Char) : Bool :=
  c.isLower || c.isUpper || c.isDigit ||
  c == '!' || c == '#' || c == '$' || c == '%' || c == '&' || c.toNat == 39 ||
  c == '*' || c == '+' || c == '-' || c == '.' || c == '^' || c == '_' ||
  c.toNat == 96 || c == '|' || c == '~'

/-- `HeaderName::try_from(&str)` as used by `render_header`: fails on an empty
or invalid name, and normalizes the name to lowercase. -/
def encodeHeaderName (s : String) : Option String :=
  if s.length != 0 && s.toList.all isHeaderNameChar then
    some (String.mk (s.toList.map Char.toLower))
  else none

/-- Valid byte of an HTTP header value, the contract of
`HeaderValue::try_from(Vec<u8>)`: visible bytes plus horizontal tab; in
particular the line-break bytes 10 and 13 are invalid. -/
def isHeaderValueByte (b : Nat) : Bool :=
  b == 9 || (32 ≤ b && b ≤ 255 && b != 127)

/-- `HeaderValue::try_from(Vec<u8>)` as used by `render_header`. -/
def encodeHeaderValue (v : List Nat) : Option (List Nat) :=
  if v.all isHeaderValueByte then some v else none

/-- `Recipe::render_header`: render the value template to bytes, strip
leading/trailing line breaks with `trim_bytes`, then encode name and value. -/
def render_header (ctx : TemplateContext) (header : String)
    (value_template : Template) : Option (String × List Nat) :=
  (ctx.render value_template).bind fun value =>
    (encodeHeaderName header).bind fun name =>
      (encodeHeaderValue (trim_bytes is_line_break value)).map fun encoded =>
        (name, encoded)

/-- `Recipe::render_query`: drop the pairs whose key is in
`disabled_query_parameters` *before* rendering, render each remaining value,
and collect into an `IndexMap`. -/
def render_query (recipe : Recipe) (options : BuildOptions)
    (ctx : TemplateContext) : Option (List (String × String)) :=
  (try_join_all
      (fun p => (ctx.render_string p.2).map (fun v => (p.1, v)))
      (recipe.query.filter
        (fun p => !(options.disabled_query_parameters.contains p.1)))).map
    indexMapCollect

/-- `Recipe::render_headers`: drop the pairs whose name is in
`disabled_headers` *before* rendering, then render each remaining header.
The resulting header map is kept as the ordered list of encoded pairs. -/
def render_headers (recipe : Recipe) (options : BuildOptions)
    (ctx : TemplateContext) : Option (List (String × List Nat)) :=
  try_join_all
    (fun p => render_header ctx p.1 p.2)
    (recipe.headers.filter (fun p => !(options.disabled_headers.contains p.1)))

/-- `Recipe::render_authentication`: renders the recipe's own authentication;
a missing Basic password renders to `none` rather than failing. -/
def render_authentication (recipe : Recipe) (ctx : TemplateContext) :
    Option (Option (Authentication String)) :=
  match recipe.authentication with
  | some (Authentication.basic username password) =>
    (ctx.render_string username).bind fun u =>
      (match password with
        | some p => (ctx.render_string p).map some
        | none => some none).map fun pw =>
        some (Authentication.basic u pw)
  | some (Authentication.bearer token) =>
    (ctx.render_string token).map fun t => some (Authentication.bearer t)
  | none => some none

/-- `Recipe::render_body`: an absent body is not an error. -/
def render_body (recipe : Recipe) (ctx : TemplateContext) :
    Option (Option (List Nat)) :=
  match recipe.body with
  | some body => (ctx.render body).map some
  | none => some none

/-- `Recipe::render_url`: render the URL template to a string, then parse it.
URL parsing belongs to the `url` crate, so the parser is a parameter. -/
def render_url (parse : String → Option Url) (recipe : Recipe)
    (ctx : TemplateContext) : Option Url :=
  (ctx.render_string recipe.url).bind parse

/-- `HttpEngine::get_client`: a missing host is replaced by the empty string
(`host_str().unwrap_or_default()`), then exact membership in the configured
danger-hostname set selects the danger client. -/
def get_client (danger_hostnames : List String) (url : Url) : ClientChoice :=
  if danger_hostnames.contains (url.host.getD "") then ClientChoice.danger
  else ClientChoice.standard

/-- `RequestBuilder::query`: the rendered query pairs are appended to the
URL's query string. -/
def apply_query (url : Url) (q : List (String × String)) : Url :=
  { url with query := url.query ++ q }

/-- The reqwest request assembled by `HttpEngine::build`, with the
authentication kept structured (the builder's `basic_auth`/`bearer_auth`
encode it into a header only at the transport layer). -/
structure NativeRequest where
  method : Method
  url : Url
  headers : List (String × List Nat)
  authentication : Option (Authentication String)
  body : Option (List Nat)
deriving DecidableEq

/-- Output of a successful `HttpEngine::build`: the selected client together
with the assembled request. -/
structure BuiltRequest where
  client : ClientChoice
  request : NativeRequest
deriving DecidableEq

/-- `HttpEngine::build`: render every facet (fail-fast on the first error),
select the client from the resolved URL, and assemble the request. -/
def build (danger_hostnames : List String) (seed : RequestSeed)
    (ctx : TemplateContext) (parse : String → Option Url) :
    Option BuiltRequest :=
  (render_url parse seed.recipe ctx).bind fun url =>
    (render_query seed.recipe seed.options ctx).bind fun query =>
      (render_headers seed.recipe seed.options ctx).bind fun headers =>
        (render_authentication seed.recipe ctx).bind fun authentication =>
          (render_body seed.recipe ctx).map fun body =>
            { client := get_client danger_hostnames url
              request :=
                { method := seed.recipe.method
                  url := apply_query url query
                  headers := headers
                  authentication := authentication
                  body := body } }

/-- `HttpEngine::build_url`: renders only the URL and the query parameters,
selects (but does not use) a client, and returns the request's URL. -/
def build_url (danger_hostnames : List String) (seed : RequestSeed)
    (ctx : TemplateContext) (parse : String → Option Url) : Option Url :=
  (render_url parse seed.recipe ctx).bind fun url =>
    (render_query seed.recipe seed.options ctx).map fun query =>
      let _client := get_client danger_hostnames url
      apply_query url query

/-- `HttpEngine::build_body`: renders only the body; the seed's options are
never consulted (`RequestSeed { id, recipe, .. }`). -/
def build_body (seed : RequestSeed) (ctx : TemplateContext) :
    Option (Option (List Nat)) :=
  render_body seed.recipe ctx

/-- The authentication facet of a build result. -/
def built_authentication (r : Option BuiltRequest) :
    Option (Option (Authentication String)) :=
  r.map fun b => b.request.authentication

/-- The immutable audit snapshot produced once per successful build. -/
structure RequestRecord where
  id : Nat
  profile_id : Option String
  recipe_id : String
  method : Method
  url : Url
  headers : List (String × List Nat)
  body : Option (List Nat)
deriving DecidableEq

/-- A fully materialized response. -/
structure ResponseRecord where
  status : Nat
  headers : List (String × List Nat)
  body : List Nat
deriving DecidableEq

/-- An assembled, not-yet-sent request bound to the client that must send
it. -/
structure RequestTicket where
  record : RequestRecord
  client : ClientChoice
deriving DecidableEq

/-- `Exchange`: request, response and both timestamps. -/
structure Exchange where
  id : Nat
  request : RequestRecord
  response : ResponseRecord
  start_time : Int
  end_time : Int
deriving DecidableEq

/-- `RequestError`: a failed send still carries the built record and both
timestamps. -/
structure RequestError where
  request : RequestRecord
  start_time : Int
  end_time : Int
  error : String
deriving DecidableEq

/-- The external world one `RequestTicket::send` runs against: the outcome of
`client.execute` plus response-body materialization (`netResult`), the
database collaborator's reply to `insert_exchange` (`insertResult`, discarded
by the code), and the two wall-clock reads bracketing the network phase. -/
structure SendWorld where
  netResult : Except String ResponseRecord
  insertResult : Except String Unit
  start_time : Int
  end_time : Int

/-- `RequestTicket::send`.  First component: the caller-visible outcome.
Second component: the arguments of every `insert_exchange` call made, in
order — the code performs exactly one such call on success
(`let _ = database.insert_exchange(&exchange);`, its result discarded) and
none on failure. -/
def send (ticket : RequestTicket) (w : SendWorld) :
    Except RequestError Exchange × List Exchange :=
  match w.netResult with
  | Except.ok response =>
    let exchange : Exchange :=
      { id := ticket.record.id
        request := ticket.record
        response := response
        start_time := w.start_time
        end_time := w.end_time }
    (Except.ok exchange, [exchange])
  | Except.error e =>
    (Except.error
      { request := ticket.record
        start_time := w.start_time
        end_time := w.end_time
        error := e }, [])

/-- Start timestamp of a send outcome, success or failure. -/
def outcome_start : Except RequestError Exchange → Int
  | Except.ok x => x.start_time
  | Except.error e => e.start_time

/-- End timestamp of a send outcome, success or failure. -/
def outcome_end : Except RequestError Exchange → Int
  | Except.ok x => x.end_time
  | Except.error e => e.end_time

/-- The credentials string produced by reqwest's `basic_auth` before base64
encoding: `username:` followed by the password when one is present.  Pinned
by the `test_authentication` cases in `http.rs` (`Basic dXNlcjo=` is the
base64 of `user:`). -/
def basic_credentials (username : String) (password : Option String) :
    String :=
  match password with
  | some p => username ++ ":" ++ p
  | none => username ++ ":"

/-- Modelled from the spec: `BuildOptions` as §3 of the spec describes it,
including the `authentication_override` field that is absent from this
version of the code (`body_override` and `form_field_overrides` are omitted
as no claim mentions their behaviour). -/
structure SpecBuildOptions where
  disabled_headers : List String
  disabled_query_parameters : List String
  authentication_override : Option (Authentication String)

/-- Modelled from the spec: the authentication the spec requires in the final
built request — the override supersedes the recipe's own authentication. -/
def spec_final_authentication (recipe : Recipe) (opts : SpecBuildOptions)
    (ctx : TemplateContext) : Option (Option (Authentication String)) :=
  match opts.authentication_override with
  | some a => some (some a)
  | none => render_authentication recipe ctx

/-! ### Concrete inputs used by the witnesses -/

/-- A small concrete recipe used by witnesses. -/
def exRecipe : Recipe :=
  { id := "r1"
    method := Method.Get
    url := { raw := "u" }
    query := [("mode", { raw := "m" }), ("fast", { raw := "f" })]
    headers := [("Accept", { raw := "a" }), ("Content-Type", { raw := "ct" })]
    authentication := none
    body := none }

/-- Concrete build options disabling one header and one query parameter. -/
def exOptions : BuildOptions :=
  { disabled_headers := ["Content-Type"]
    disabled_query_parameters := ["fast"] }

/-- A render contract that succeeds on every template. -/
def exCtx : TemplateContext :=
  { render_string := fun t => some t.raw
    render := fun _ => some [65] }

/-- A render contract that fails exactly on the templates of the disabled
fields of `exRecipe`/`exOptions` and agrees with `exCtx` elsewhere. -/
def exCtxFailDisabled : TemplateContext :=
  { render_string := fun t => if t.raw = "f" then none else some t.raw
    render := fun t => if t.raw = "ct" then none else some [65] }

/-- A concrete URL with no host (such as `mailto:` URLs). -/
def exUrlNoHost : Url :=
  { host := none, base := "mailto:user@example.com", query := [] }

/-- A concrete URL with host `h1`. -/
def exUrlH1 : Url :=
  { host := some "h1", base := "https://h1/x", query := [] }

/-- Another concrete URL with host `h1` but a different path. -/
def exUrlH1' : Url :=
  { host := some "h1", base := "https://h1/y", query := [] }

/-- A concrete build-time request record. -/
def exRecord : RequestRecord :=
  { id := 7
    profile_id := some "p1"
    recipe_id := "r1"
    method := Method.Get
    url := exUrlH1
    headers := [("accept", [65])]
    body := none }

/-- A concrete ticket holding `exRecord`. -/
def exTicket : RequestTicket :=
  { record := exRecord, client := ClientChoice.standard }

/-- A concrete materialized response. -/
def exResponse : ResponseRecord :=
  { status := 200, headers := [], body := [104, 105] }

/-- A send world in which the network phase fails. -/
def exWorldFail : SendWorld :=
  { netResult := Except.error "connection refused"
    insertResult := Except.ok ()
    start_time := 5
    end_time := 7 }

/-- A send world in which everything succeeds. -/
def exWorldOk : SendWorld :=
  { netResult := Except.ok exResponse
    insertResult := Except.ok ()
    start_time := 5
    end_time := 7 }

/-- The same send world except that the database insert fails. -/
def exWorldOkDbFail : SendWorld :=
  { netResult := Except.ok exResponse
    insertResult := Except.error "database is locked"
    start_time := 5
    end_time := 7 }

/-- A URL parser stub for witnesses. -/
def exParse : String → Option Url :=
  fun s => some { host := some "h", base := s, query := [] }

/-- Build options disabling nothing. -/
def exOptionsEmpty : BuildOptions :=
  { disabled_headers := [], disabled_query_parameters := [] }

/-- A concrete recipe carrying Bearer authentication. -/
def exRecipeBearer : Recipe :=
  { id := "r2"
    method := Method.Get
    url := { raw := "u" }
    query := []
    headers := []
    authentication := some (Authentication.bearer { raw := "tk" })
    body := none }

/-- A seed for `exRecipeBearer`. -/
def exSeedBearer : RequestSeed :=
  { id := 1, recipe := exRecipeBearer, options := exOptionsEmpty }

/-- The request `build` assembles from `exSeedBearer` under `exCtx` and
`exParse`. -/
def exBuiltBearer : BuiltRequest :=
  { client := ClientChoice.standard
    request :=
      { method := Method.Get
        url := { host := some "h", base := "u", query := [] }
        headers := []
        authentication := some (Authentication.bearer "tk")
        body := none } }

/-- The spec-side build options carrying an authentication override. -/
def exSpecOverride : SpecBuildOptions :=
  { disabled_headers := []
    disabled_query_parameters := []
    authentication_override := some (Authentication.basic "u" none) }

/-- A render contract agreeing with `exCtx` on every string render but
failing every byte render (so every header render and every body render
fails). -/
def exCtxFailHeaders : TemplateContext :=
  { render_string := fun t => some t.raw
    render := fun _ => none }

/-- A render contract agreeing with `exCtx` on every byte render but failing
every string render (so every URL, query-parameter and authentication render
fails). -/
def exCtxFailStrings : TemplateContext :=
  { render_string := fun _ => none
    render := fun _ => some [65] }

/-- A concrete recipe exercising every facet a partial build may touch:
URL, a query parameter, a header and a body. -/
def exRecipeFull : Recipe :=
  { id := "r4"
    method := Method.Get
    url := { raw := "u" }
    query := [("mode", { raw := "m" })]
    headers := [("Accept", { raw := "a" })]
    authentication := none
    body := some { raw := "b" } }

/-- A seed for `exRecipeFull`. -/
def exSeedFull : RequestSeed :=
  { id := 2, recipe := exRecipeFull, options := exOptionsEmpty }

/-- A concrete recipe with Basic authentication and no password template. -/
def exRecipeBasicNoPw : Recipe :=
  { id := "r3"
    method := Method.Get
    url := { raw := "u" }
    query := []
    headers := []
    authentication := some (Authentication.basic { raw := "un" } none)
    body := none }

/-! ### Lemmas about the trim scan -/

theorem trimStartAux_eq_none {f : Nat → Bool} {l : List Nat} :
    trimStartAux f l = none ↔ ∀ b ∈ l, f b = true := by
  induction l with
  | nil => simp [trimStartAux]
  | cons b t ih =>
    by_cases hb : f b
    · simp [trimStartAux, hb, ih]
    · simp [trimStartAux, hb]

theorem trimStartAux_eq_some {f : Nat → Bool} {l r : List Nat}
    (h : trimStartAux f l = some r) : r = l.dropWhile f := by
  induction l with
  | nil => simp [trimStartAux] at h
  | cons b t ih =>
    by_cases hb : f b
    · simp only [trimStartAux, hb, if_true] at h
      rw [List.dropWhile_cons_of_pos hb]
      exact ih h
    · simp only [trimStartAux, hb, if_false] at h
      rw [List.dropWhile_cons_of_neg hb]
      exact (Option.some_inj.mp h).symm

theorem dropWhile_head_false {f : Nat → Bool} {l : List Nat} {b : Nat}
    {t : List Nat} (h : l.dropWhile f = b :: t) : f b = false := by
  induction l with
  | nil => simp at h
  | cons c u ih =>
    by_cases hc : f c
    · rw [List.dropWhile_cons_of_pos hc] at h
      exact ih h
    · rw [List.dropWhile_cons_of_neg hc] at h
      cases h
      exact Bool.not_eq_true _ ▸ (by simpa using hc)

theorem mem_dropWhile_of_false {f : Nat → Bool} {l : List Nat} {b : Nat}
    (hmem : b ∈ l) (hb : f b = false) : b ∈ l.dropWhile f := by
  have hsplit := List.takeWhile_append_dropWhile f l
  rw [← hsplit] at hmem
  rcases List.mem_append.mp hmem with hl | hr
  · have := List.mem_takeWhile_imp hl
    rw [hb] at this
    cases this
  · exact hr

theorem getLast?_dropWhile {f : Nat → Bool} {l : List Nat}
    (h : l.dropWhile f ≠ []) : (l.dropWhile f).getLast? = l.getLast? := by
  induction l with
  | nil => simp at h
  | cons c u ih =>
    by_cases hc : f c
    · rw [List.dropWhile_cons_of_pos hc] at h ⊢
      rw [ih h, List.getLast?_cons]
      cases hg : u.getLast? with
      | none =>
        have hu : u = [] := List.getLast?_eq_none_iff.mp hg
        rw [hu] at h
        simp at h
      | some x => rfl
    · rw [List.dropWhile_cons_of_neg hc]

theorem trimStart_all {f : Nat → Bool} {l : List Nat}
    (h : ∀ b ∈ l, f b = true) : trimStart f l = l := by
  unfold trimStart
  rw [trimStartAux_eq_none.mpr h]
  rfl

theorem trimStart_not_all {f : Nat → Bool} {l : List Nat}
    (h : ¬ ∀ b ∈ l, f b = true) : trimStart f l = l.dropWhile f := by
  unfold trimStart
  cases haux : trimStartAux f l with
  | none => exact absurd (trimStartAux_eq_none.mp haux) h
  | some r => simpa using trimStartAux_eq_some haux

theorem trimEnd_all {f : Nat → Bool} {l : List Nat}
    (h : ∀ b ∈ l, f b = true) : trimEnd f l = l := by
  unfold trimEnd
  have : trimStartAux f l.reverse = none :=
    trimStartAux_eq_none.mpr (fun b hb => h b (List.mem_reverse.mp hb))
  rw [this]
  rfl

theorem trimEnd_not_all {f : Nat → Bool} {l : List Nat}
    (h : ¬ ∀ b ∈ l, f b = true) :
    trimEnd f l = (l.reverse.dropWhile f).reverse := by
  unfold trimEnd
  cases haux : trimStartAux f l.reverse with
  | none =>
    refine absurd (fun b hb => ?_) h
    exact trimStartAux_eq_none.mp haux b (List.mem_reverse.mpr hb)
  | some r =>
    rw [trimStartAux_eq_some haux]
    rfl

theorem trim_bytes_all {f : Nat → Bool} {l : List Nat}
    (h : ∀ b ∈ l, f b = true) : trim_bytes f l = l := by
  unfold trim_bytes
  rw [trimStart_all h, trimEnd_all h]

/-- A sequence whose first and last bytes both fail the predicate is a fixed
point of `trim_bytes`. -/
theorem trim_bytes_fixed {f : Nat → Bool} {l : List Nat} {b c : Nat}
    (hhead : l.head? = some b) (hb : f b = false)
    (hlast : l.getLast? = some c) (hc : f c = false) :
    trim_bytes f l = l := by
  have hnotall : ¬ ∀ y ∈ l, f y = true := by
    intro hall
    cases l with
    | nil => simp at hhead
    | cons x t =>
      have hx : x = b := by simpa using hhead
      subst hx
      rw [hall x (List.mem_cons_self x t)] at hb
      cases hb
  have h1 : trimStart f l = l := by
    rw [trimStart_not_all hnotall]
    cases l with
    | nil => rfl
    | cons x t =>
      have hx : x = b := by simpa using hhead
      subst hx
      exact List.dropWhile_cons_of_neg (by simp [hb])
  have h2 : trimEnd f l = l := by
    rw [trimEnd_not_all hnotall]
    cases hrev : l.reverse with
    | nil =>
      have : l = [] := by
        have := congrArg List.reverse hrev
        simpa using this
      subst this
      simp at hhead
    | cons y rest =>
      have hy : y = c := by
        have hh : l.reverse.head? = some c := by
          rw [List.head?_reverse]
          exact hlast
        rw [hrev] at hh
        simpa using hh
      subst hy
      rw [List.dropWhile_cons_of_neg (by simp [hc]), ← hrev,
        List.reverse_reverse]
  unfold trim_bytes
  rw [h1, h2]

/-- When some byte fails the predicate, `trim_bytes` returns exactly the
segment from the first failing byte through the last failing byte. -/
theorem trim_bytes_eq_core {f : Nat → Bool} {l : List Nat}
    (h : ¬ ∀ b ∈ l, f b = true) : trim_bytes f l = core_segment f l := by
  obtain ⟨b0, hmem0, hb0⟩ : ∃ b ∈ l, f b = false := by
    push_neg at h
    obtain ⟨b0, hm, hb⟩ := h
    exact ⟨b0, hm, by simpa using hb⟩
  have hnotall_d : ¬ ∀ b ∈ l.dropWhile f, f b = true := by
    intro hall
    have hb0d := mem_dropWhile_of_false hmem0 hb0
    rw [hall b0 hb0d] at hb0
    cases hb0
  unfold trim_bytes core_segment
  rw [trimStart_not_all h, trimEnd_not_all hnotall_d]

/-- When some byte fails the predicate, the trimmed result starts and ends
with bytes failing the predicate. -/
theorem core_segment_ends {f : Nat → Bool} {l : List Nat}
    (h : ¬ ∀ b ∈ l, f b = true) :
    ∃ b c, (core_segment f l).head? = some b ∧ f b = false ∧
      (core_segment f l).getLast? = some c ∧ f c = false := by
  obtain ⟨b0, hmem0, hb0⟩ : ∃ b ∈ l, f b = false := by
    push_neg at h
    obtain ⟨b0, hm, hb⟩ := h
    exact ⟨b0, hm, by simpa using hb⟩
  have hb0d : b0 ∈ l.dropWhile f := mem_dropWhile_of_false hmem0 hb0
  obtain ⟨bh, t, hbt⟩ : ∃ bh t, l.dropWhile f = bh :: t := by
    cases hdw : l.dropWhile f with
    | nil =>
      rw [hdw] at hb0d
      cases hb0d
    | cons bh t => exact ⟨bh, t, rfl⟩
  have hfbh : f bh = false := dropWhile_head_false hbt
  have hb0rev : b0 ∈ (l.dropWhile f).reverse := List.mem_reverse.mpr hb0d
  have hs_ne : (l.dropWhile f).reverse.dropWhile f ≠ [] := by
    intro hnil
    have := List.dropWhile_eq_nil_iff.mp hnil b0 hb0rev
    rw [hb0] at this
    cases this
  obtain ⟨c, u, hcu⟩ :
      ∃ c u, (l.dropWhile f).reverse.dropWhile f = c :: u := by
    cases hdw : (l.dropWhile f).reverse.dropWhile f with
    | nil => exact absurd hdw hs_ne
    | cons c u => exact ⟨c, u, rfl⟩
  have hfc : f c = false := dropWhile_head_false hcu
  refine ⟨bh, c, ?_, hfbh, ?_, hfc⟩
  · unfold core_segment
    rw [List.head?_reverse, getLast?_dropWhile hs_ne, List.getLast?_reverse,
      hbt]
    rfl
  · unfold core_segment
    rw [List.getLast?_reverse, hcu]
    rfl

/-! ### Lemmas about the concurrent join and the IndexMap collect -/

theorem try_join_all_congr {α β : Type} {f g : α → Option β} {l : List α}
    (h : ∀ x ∈ l, f x = g x) : try_join_all f l = try_join_all g l := by
  induction l with
  | nil => rfl
  | cons x xs ih =>
    have hx := h x (List.mem_cons_self x xs)
    have ht := ih (fun y hy => h y (List.mem_cons_of_mem x hy))
    simp only [try_join_all, hx, ht]

theorem try_join_all_mem {α β : Type} {f : α → Option β} {l : List α}
    {r : List β} (h : try_join_all f l = some r) :
    ∀ y ∈ r, ∃ x ∈ l, f x = some y := by
  induction l generalizing r with
  | nil =>
    simp only [try_join_all, Option.some_inj] at h
    subst h
    intro y hy
    cases hy
  | cons x xs ih =>
    simp only [try_join_all] at h
    cases hfx : f x with
    | none =>
      rw [hfx] at h
      cases h
    | some y0 =>
      rw [hfx] at h
      cases hrec : try_join_all f xs with
      | none =>
        rw [hrec] at h
        cases h
      | some ys =>
        rw [hrec] at h
        obtain rfl : y0 :: ys = r := by simpa using h
        intro y hy
        rcases List.mem_cons.mp hy with rfl | hmem
        · exact ⟨x, List.mem_cons_self x xs, hfx⟩
        · obtain ⟨x', hx', hfx'⟩ := ih hrec y hmem
          exact ⟨x', List.mem_cons_of_mem x hx', hfx'⟩

theorem indexMapInsert_fst_mem {m : List (String × String)} {k v : String}
    {p : String × String} (h : p ∈ indexMapInsert m k v) :
    p.1 ∈ m.map Prod.fst ∨ p.1 = k := by
  unfold indexMapInsert at h
  split at h
  · obtain ⟨q, hq, hqe⟩ := List.mem_map.mp h
    split at hqe
    · right
      rw [← hqe]
    · left
      exact hqe ▸ List.mem_map_of_mem Prod.fst hq
  · rcases List.mem_append.mp h with hm | hk
    · exact Or.inl (List.mem_map_of_mem Prod.fst hm)
    · right
      have hpk : p = (k, v) := by simpa using hk
      rw [hpk]

theorem foldl_indexMapInsert_keys (l : List (String × String)) :
    ∀ (acc : List (String × String)) (p : String × String),
      p ∈ l.foldl (fun m q => indexMapInsert m q.1 q.2) acc →
      p.1 ∈ acc.map Prod.fst ∨ p.1 ∈ l.map Prod.fst := by
  induction l with
  | nil =>
    intro acc p h
    exact Or.inl (List.mem_map_of_mem Prod.fst h)
  | cons q t ih =>
    intro acc p h
    simp only [List.foldl_cons] at h
    rcases ih _ p h with hacc | ht
    · obtain ⟨p', hp', he⟩ := List.mem_map.mp hacc
      rcases indexMapInsert_fst_mem hp' with h1 | h2
      · exact Or.inl (he ▸ h1)
      · right
        rw [← he, h2]
        exact List.mem_map_of_mem Prod.fst (List.mem_cons_self q t)
    · right
      simp only [List.map_cons]
      exact List.mem_cons_of_mem _ ht

theorem indexMapCollect_keys {l : List (String × String)}
    {p : String × String} (h : p ∈ indexMapCollect l) :
    p.1 ∈ l.map Prod.fst := by
  rcases foldl_indexMapInsert_keys l [] p h with hacc | hl
  · cases hacc
  · exact hl

theorem render_header_congr {ctx ctx' : TemplateContext} {header : String}
    {t : Template} (h : ctx.render t = ctx'.render t) :
    render_header ctx header t = render_header ctx' header t := by
  unfold render_header
  rw [h]

/-! ### Claim theorems -/

/-- **C1** (code bug evaluation): on a byte sequence every byte of which
satisfies the predicate, `trim_bytes` leaves the sequence unchanged instead
of emptying it — the trim loops only drain once they find a non-matching
byte, so when none exists no drain ever fires.  Evaluated here at the
all-line-break input `[10, 13]` with the header-trimming predicate. -/
theorem C1_trim_all_matching_left_unchanged :
    trim_bytes is_line_break [10, 13] = [10, 13] ∧
    trim_bytes is_line_break [10, 13] ≠ [] := by
  constructor
  · rfl
  · decide

/-- **C2**: a query parameter whose key is in `disabled_query_parameters` and
a header whose name is in `disabled_headers` are excluded before rendering:
the outcome only depends on the render contract's behaviour on the enabled
fields (so a disabled field can never cause a render error), no disabled key
occurs in the rendered query mapping, and every entry of the rendered header
map originates from an enabled recipe header. -/
theorem C2_disabled_fields_excluded
    (r : Recipe) (o : BuildOptions) (ctx ctx' : TemplateContext)
    (qres : List (String × String)) (hdrs : List (String × List Nat))
    (hagreeq : ∀ p ∈ r.query,
      o.disabled_query_parameters.contains p.1 = false →
      ctx.render_string p.2 = ctx'.render_string p.2)
    (hagreeh : ∀ p ∈ r.headers,
      o.disabled_headers.contains p.1 = false →
      ctx.render p.2 = ctx'.render p.2)
    (hq : render_query r o ctx = some qres)
    (hh : render_headers r o ctx = some hdrs) :
    render_query r o ctx' = some qres ∧
    render_headers r o ctx' = some hdrs ∧
    (o.disabled_query_parameters.all fun k =>
      qres.all fun p => p.1 != k) = true ∧
    (hdrs.all fun p => r.headers.any fun q =>
      !(o.disabled_headers.contains q.1) &&
        (encodeHeaderName q.1 == some p.1)) = true := by
  have hqcong :
      try_join_all (fun p => (ctx.render_string p.2).map (fun v => (p.1, v)))
        (r.query.filter
          (fun p => !(o.disabled_query_parameters.contains p.1))) =
      try_join_all (fun p => (ctx'.render_string p.2).map (fun v => (p.1, v)))
        (r.query.filter
          (fun p => !(o.disabled_query_parameters.contains p.1))) := by
    apply try_join_all_congr
    intro x hx
    obtain ⟨hmem, hpred⟩ := List.mem_filter.mp hx
    rw [Bool.not_eq_true'] at hpred
    rw [hagreeq x hmem hpred]
  have hhcong :
      try_join_all (fun p => render_header ctx p.1 p.2)
        (r.headers.filter (fun p => !(o.disabled_headers.contains p.1))) =
      try_join_all (fun p => render_header ctx' p.1 p.2)
        (r.headers.filter (fun p => !(o.disabled_headers.contains p.1))) := by
    apply try_join_all_congr
    intro x hx
    obtain ⟨hmem, hpred⟩ := List.mem_filter.mp hx
    rw [Bool.not_eq_true'] at hpred
    exact render_header_congr (hagreeh x hmem hpred)
  refine ⟨?_, ?_, ?_, ?_⟩
  · unfold render_query at hq ⊢
    rw [← hqcong]
    exact hq
  · unfold render_headers at hh ⊢
    rw [← hhcong]
    exact hh
  · unfold render_query at hq
    obtain ⟨rr, htja, himc⟩ := Option.map_eq_some'.mp hq
    simp only [List.all_eq_true, bne_iff_ne, ne_eq]
    intro k hk p hp hpk
    rw [← himc] at hp
    have hkey := indexMapCollect_keys hp
    obtain ⟨y, hy, hye⟩ := List.mem_map.mp hkey
    obtain ⟨x, hx, hfx⟩ := try_join_all_mem htja y hy
    obtain ⟨hmem, hpred⟩ := List.mem_filter.mp hx
    rw [Bool.not_eq_true'] at hpred
    obtain ⟨v, hv, hyv⟩ := Option.map_eq_some'.mp hfx
    have hx1 : p.1 = x.1 := by
      rw [← hye, ← hyv]
    have hcx : o.disabled_query_parameters.contains x.1 = true := by
      rw [← hx1, hpk]
      simpa [List.contains] using List.elem_eq_true_of_mem hk
    rw [hcx] at hpred
    cases hpred
  · unfold render_headers at hh
    simp only [List.all_eq_true, List.any_eq_true, Bool.and_eq_true,
      Bool.not_eq_true', beq_iff_eq]
    intro p hp
    obtain ⟨x, hx, hfx⟩ := try_join_all_mem hh p hp
    obtain ⟨hmem, hpred⟩ := List.mem_filter.mp hx
    rw [Bool.not_eq_true'] at hpred
    unfold render_header at hfx
    simp only [Option.bind_eq_some, Option.map_eq_some'] at hfx
    obtain ⟨value, hv, name, hn, enc, he, hpe⟩ := hfx
    refine ⟨x, hmem, hpred, ?_⟩
    rw [← hpe]
    exact hn

/-- Witness for C2 at a concrete recipe: a render contract that fails on the
disabled field templates still yields the same rendered query mapping and
header map, which contain no disabled field. -/
theorem C2_witness :
    render_query exRecipe exOptions exCtxFailDisabled = some [("mode", "m")] ∧
    render_headers exRecipe exOptions exCtxFailDisabled =
      some [("accept", [65])] ∧
    (exOptions.disabled_query_parameters.all fun k =>
      [("mode", "m")].all fun p => p.1 != k) = true ∧
    ([("accept", [65])].all fun p => exRecipe.headers.any fun q =>
      !(exOptions.disabled_headers.contains q.1) &&
        (encodeHeaderName q.1 == some p.1)) = true :=
  C2_disabled_fields_excluded exRecipe exOptions exCtx exCtxFailDisabled
    [("mode", "m")] [("accept", [65])] (by decide) (by decide) (by decide)
    (by decide)

/-- **C8**: trimming is idempotent, and the whole contiguous segment of the
input from its first non-matching byte through its last non-matching byte —
in particular every non-matching interior byte — survives trimming, in
order. -/
theorem C8_trim_idempotent_and_interior_preserved (f : Nat → Bool)
    (l : List Nat) :
    trim_bytes f (trim_bytes f l) = trim_bytes f l ∧
    ∃ pre post, trim_bytes f l = pre ++ core_segment f l ++ post := by
  by_cases hall : ∀ b ∈ l, f b = true
  · refine ⟨by rw [trim_bytes_all hall, trim_bytes_all hall], l, [], ?_⟩
    rw [trim_bytes_all hall]
    have hdw : l.dropWhile f = [] := List.dropWhile_eq_nil_iff.mpr hall
    simp [core_segment, hdw]
  · have hcore := trim_bytes_eq_core hall
    obtain ⟨b, c, hh, hbf, hl2, hcf⟩ := core_segment_ends hall
    refine ⟨?_, [], [], by simp [hcore]⟩
    rw [hcore]
    exact trim_bytes_fixed hh hbf hl2 hcf

/-- **C3** (counterexample): the claim says a URL with no host *always*
selects the standard client, but `get_client` substitutes the empty string
for a missing host before the membership test, so a configured set containing
the empty string routes host-less URLs to the danger client. -/
theorem C3_counterexample :
    get_client [""] exUrlNoHost = ClientChoice.danger ∧
    ClientChoice.danger ≠ ClientChoice.standard := by
  constructor
  · rfl
  · decide

/-- **C3** (amended): client selection is a pure function of the URL's host
string — two URLs with the same host select the same client — and the danger
client is selected exactly when that host string (the empty string for a URL
with no host) is literally a member of the configured set; in particular no
wildcard or suffix matching happens, and a URL with no host selects the
standard client unless the configured set itself contains the empty
string. -/
theorem C3_client_selection_by_exact_host (s : List String) (u u' : Url)
    (h : u.host = u'.host) :
    get_client s u = get_client s u' ∧
    (get_client s u = ClientChoice.danger ↔
      s.contains (u.host.getD "") = true) := by
  constructor
  · unfold get_client
    rw [h]
  · unfold get_client
    by_cases hc : s.contains (u.host.getD "") = true
    · rw [if_pos hc]
      exact iff_of_true rfl hc
    · rw [if_neg hc]
      exact iff_of_false (by decide) hc

/-- Witness for C3 at the spec's own example: with configured set `{"h1"}`,
a URL with host `h1` selects the danger client (independently of the rest of
the URL) and the danger choice is equivalent to exact membership. -/
theorem C3_witness :
    get_client ["h1"] exUrlH1 = get_client ["h1"] exUrlH1' ∧
    (get_client ["h1"] exUrlH1 = ClientChoice.danger ↔
      List.contains ["h1"] (exUrlH1.host.getD "") = true) :=
  C3_client_selection_by_exact_host ["h1"] exUrlH1 exUrlH1' rfl

/-- **C4**: when the network/body-materialization phase fails, `send` returns
a `RequestError` that embeds the ticket's build-time `RequestRecord`
unchanged together with both wall-clock reads, and — given that the second
clock read is not earlier than the first — `start_time ≤ end_time` holds in
the failure outcome as well as in a success outcome. -/
theorem C4_failed_send_preserves_record (ticket : RequestTicket)
    (w w2 : SendWorld) (msg : String) (resp : ResponseRecord)
    (hmono : w.start_time ≤ w.end_time)
    (hmono2 : w2.start_time ≤ w2.end_time)
    (hfail : w.netResult = Except.error msg)
    (hok : w2.netResult = Except.ok resp) :
    (send ticket w).1 =
      Except.error
        { request := ticket.record
          start_time := w.start_time
          end_time := w.end_time
          error := msg } ∧
    outcome_start (send ticket w).1 ≤ outcome_end (send ticket w).1 ∧
    outcome_start (send ticket w2).1 ≤ outcome_end (send ticket w2).1 := by
  unfold send
  rw [hfail, hok]
  exact ⟨rfl, hmono, hmono2⟩

/-- Witness for C4: a concrete failed send yields the error embedding the
build-time record and both timestamps, and the timestamps are ordered in
both a failed and a successful outcome. -/
theorem C4_witness :
    (send exTicket exWorldFail).1 =
      Except.error
        { request := exTicket.record
          start_time := exWorldFail.start_time
          end_time := exWorldFail.end_time
          error := "connection refused" } ∧
    outcome_start (send exTicket exWorldFail).1 ≤
      outcome_end (send exTicket exWorldFail).1 ∧
    outcome_start (send exTicket exWorldOk).1 ≤
      outcome_end (send exTicket exWorldOk).1 :=
  C4_failed_send_preserves_record exTicket exWorldFail exWorldOk
    "connection refused" exResponse (by decide) (by decide) rfl rfl

/-- **C5**: a successful send attempts the database insert exactly once, with
exactly the exchange returned to the caller; the insert's outcome is
discarded, so the caller-visible result is identical whether persistence
succeeded or failed; and a failed send never attempts persistence. -/
theorem C5_persistence_best_effort (ticket : RequestTicket)
    (w w2 wf : SendWorld) (resp : ResponseRecord) (msg : String)
    (hok : w.netResult = Except.ok resp)
    (hok2 : w2.netResult = Except.ok resp)
    (hstart : w2.start_time = w.start_time)
    (hend : w2.end_time = w.end_time)
    (hfail : wf.netResult = Except.error msg) :
    (send ticket w).2 =
      [{ id := ticket.record.id
         request := ticket.record
         response := resp
         start_time := w.start_time
         end_time := w.end_time }] ∧
    (send ticket w).1 =
      Except.ok
        { id := ticket.record.id
          request := ticket.record
          response := resp
          start_time := w.start_time
          end_time := w.end_time } ∧
    (send ticket w2).1 = (send ticket w).1 ∧
    (send ticket wf).2 = [] := by
  unfold send
  rw [hok, hok2, hfail, hstart, hend]
  exact ⟨rfl, rfl, rfl, rfl⟩

/-- Witness for C5: concretely, the worlds `exWorldOk` and `exWorldOkDbFail`
differ only in the database collaborator's reply, and the send outcome is
the same exchange in both; the failed world performs no insert. -/
theorem C5_witness :
    (send exTicket exWorldOk).2 =
      [{ id := exTicket.record.id
         request := exTicket.record
         response := exResponse
         start_time := exWorldOk.start_time
         end_time := exWorldOk.end_time }] ∧
    (send exTicket exWorldOk).1 =
      Except.ok
        { id := exTicket.record.id
          request := exTicket.record
          response := exResponse
          start_time := exWorldOk.start_time
          end_time := exWorldOk.end_time } ∧
    (send exTicket exWorldOkDbFail).1 = (send exTicket exWorldOk).1 ∧
    (send exTicket exWorldFail).2 = [] :=
  C5_persistence_best_effort exTicket exWorldOk exWorldOkDbFail exWorldFail
    exResponse "connection refused" rfl rfl rfl rfl rfl

/-- **C6** (counterexample): the spec's build options carry an
authentication override that must supersede the recipe's own authentication
in the final request, but on a recipe with Bearer authentication and an
active Basic override the request the code builds still carries the
recipe's rendered Bearer authentication — this version's `BuildOptions` has
no override field and `build` consults none. -/
theorem C6_counterexample :
    spec_final_authentication exRecipeBearer exSpecOverride exCtx =
      some (some (Authentication.basic "u" none)) ∧
    built_authentication (build [] exSeedBearer exCtx exParse) =
      some (some (Authentication.bearer "tk")) ∧
    (some (some (Authentication.basic "u" none)) :
        Option (Option (Authentication String))) ≠
      some (some (Authentication.bearer "tk")) := by
  refine ⟨rfl, rfl, ?_⟩
  decide

/-- **C6** (amended): this version's `BuildOptions` offers no authentication
override; every successfully built request carries exactly the recipe's own
rendered authentication, whatever the seed's options are, and the
authentication render step itself never reads the options. -/
theorem C6_authentication_never_overridden (dh : List String)
    (seed : RequestSeed) (ctx : TemplateContext)
    (parse : String → Option Url) (b : BuiltRequest)
    (h : build dh seed ctx parse = some b) :
    render_authentication seed.recipe ctx =
      some b.request.authentication := by
  unfold build at h
  simp only [Option.bind_eq_some, Option.map_eq_some'] at h
  obtain ⟨url, hu, query, hq, headers, hh, auth, ha, body, hb, hbe⟩ := h
  rw [← hbe]
  exact ha

/-- Witness for C6 (amended) at a concrete successful build. -/
theorem C6_witness :
    render_authentication exSeedBearer.recipe exCtx =
      some exBuiltBearer.request.authentication :=
  C6_authentication_never_overridden [] exSeedBearer exCtx exParse
    exBuiltBearer rfl

/-- **C7**: `build_url` invokes the render contract only for the URL and
query-parameter templates, and `build_body` only for the body template.  Two
render contracts `ctx`, `ctx'` that agree on the URL and query templates
alone — they may disagree arbitrarily on every header, authentication *and
body* template — give identical `build_url` results, and two contracts
`ctx2`, `ctx2'` that agree on the body template alone — they may disagree
arbitrarily on every URL, query, header and authentication template — give
identical `build_body` results. -/
theorem C7_partial_builds_render_only_their_facets (dh : List String)
    (seed : RequestSeed) (ctx ctx' ctx2 ctx2' : TemplateContext)
    (parse : String → Option Url)
    (hurl : ctx.render_string seed.recipe.url =
      ctx'.render_string seed.recipe.url)
    (hq : ∀ p ∈ seed.recipe.query,
      ctx.render_string p.2 = ctx'.render_string p.2)
    (hb : seed.recipe.body.map ctx2.render =
      seed.recipe.body.map ctx2'.render) :
    build_url dh seed ctx parse = build_url dh seed ctx' parse ∧
    build_body seed ctx2 = build_body seed ctx2' := by
  have hqeq : render_query seed.recipe seed.options ctx =
      render_query seed.recipe seed.options ctx' := by
    unfold render_query
    congr 1
    apply try_join_all_congr
    intro x hx
    obtain ⟨hmem, _⟩ := List.mem_filter.mp hx
    rw [hq x hmem]
  constructor
  · unfold build_url render_url
    rw [hurl, hqeq]
  · unfold build_body render_body
    cases hbody : seed.recipe.body with
    | none => rfl
    | some t =>
      rw [hbody] at hb
      have hb' : ctx2.render t = ctx2'.render t := by
        simpa using hb
      show Option.map some (ctx2.render t) = Option.map some (ctx2'.render t)
      rw [hb']

/-- Witness for C7 on a recipe with all four facets: a render contract that
fails every header and body render still yields the same `build_url` result
as one that succeeds everywhere (so `build_url` rendered neither), and a
render contract that fails every URL, query and authentication render still
yields the same `build_body` result (so `build_body` rendered none of
them). -/
theorem C7_witness :
    build_url [] exSeedFull exCtx exParse =
      build_url [] exSeedFull exCtxFailHeaders exParse ∧
    build_body exSeedFull exCtx = build_body exSeedFull exCtxFailStrings :=
  C7_partial_builds_render_only_their_facets [] exSeedFull exCtx
    exCtxFailHeaders exCtx exCtxFailStrings exParse rfl (by decide) rfl

/-- **C9**: a recipe with Basic authentication and no password template
renders its authentication successfully to the rendered username and an
absent password, and the credentials handed to transport-layer encoding are
`username:` with an empty password. -/
theorem C9_basic_auth_missing_password (r : Recipe)
    (ctx : TemplateContext) (u : Template) (s : String)
    (hauth : r.authentication = some (Authentication.basic u none))
    (hu : ctx.render_string u = some s) :
    render_authentication r ctx =
      some (some (Authentication.basic s none)) ∧
    basic_credentials s none = s ++ ":" := by
  constructor
  · unfold render_authentication
    rw [hauth]
    show (ctx.render_string u).bind
        (fun u2 =>
          Option.map (fun pw => some (Authentication.basic u2 pw))
            (some none)) =
      some (some (Authentication.basic s none))
    rw [hu]
    rfl
  · rfl

/-- Witness for C9 at a concrete recipe and render contract. -/
theorem C9_witness :
    render_authentication exRecipeBasicNoPw exCtx =
      some (some (Authentication.basic "un" none)) ∧
    basic_credentials "un" none = "un" ++ ":" :=
  C9_basic_auth_missing_password exRecipeBasicNoPw exCtx { raw := "un" }
    "un" rfl rfl

/-- **C10**: `build_body` never consults the seed's `BuildOptions`
(`RequestSeed { id, recipe, .. }` discards them): two seeds sharing a recipe
but holding any two options values produce identical `build_body` results
under every render contract. -/
theorem C10_build_body_independent_of_options (i : Nat) (r : Recipe)
    (o o' : BuildOptions) (ctx : TemplateContext) :
    build_body { id := i, recipe := r, options := o } ctx =
      build_body { id := i, recipe := r, options := o' } ctx := rfl

end Slumber
